import Mathlib

/-!
Verification of the vms streamer pipeline.

Shallow embedding of the program in `src/streamer.cpp`, `src/utils.hpp`
and `src/avoptions.hpp`: the copy-path timestamp repair, the packet
fan-out to the rendition encoders, the run loop, the session controller
(reconnect loop of `main`), and the HLS option computation.  External
library calls (decode, encode, scale, mux, timestamp rescale) are
abstracted as oracle parameters; machine `int64_t` values are modelled
as unbounded `Int` (signed overflow is undefined behaviour in the
source, so the mathematical integers are its defined-behaviour
semantics), with FFmpeg's sentinel constants kept as explicit values.
-/

/-- FFmpeg's sentinel for an unknown timestamp: `AV_NOPTS_VALUE`,
which is `INT64_MIN`. -/
def AV_NOPTS_VALUE : Int := -9223372036854775808

/-- FFmpeg error code `AVERROR_EXIT` (tag 'E','X','I','T'), returned by
`run_loop` when the cancellation flag is observed. -/
def AVERROR_EXIT : Int := -1414092869

/-- FFmpeg error code `AVERROR_EOF` (tag 'E','O','F',' '). -/
def AVERROR_EOF : Int := -541478725

/-- FFmpeg error code `AVERROR_INVALIDDATA` (tag 'I','N','D','A'),
a typical unrecoverable mid-stream decode error. -/
def AVERROR_INVALIDDATA : Int := -1094995529

/-- The timestamp-carrying fields of an `AVPacket` that the copy-path
repair of `normalize_copy_timestamps` (streamer.cpp:662) reads and
writes: presentation timestamp, decode timestamp, duration. -/
structure CPacket where
  pts : Int
  dts : Int
  duration : Int
deriving DecidableEq, Repr

/-- streamer.cpp:669-678, the missing-timestamp fill step of
`normalize_copy_timestamps`: both unknown means both become the cursor
value `next`; a single unknown timestamp is copied from the other. -/
def fill_missing_timestamps (next : Int) (p : CPacket) : CPacket :=
  if p.pts = AV_NOPTS_VALUE ∧ p.dts = AV_NOPTS_VALUE then
    { p with pts := next, dts := next }
  else if p.pts = AV_NOPTS_VALUE then
    { p with pts := p.dts }
  else if p.dts = AV_NOPTS_VALUE then
    { p with dts := p.pts }
  else p

/-- streamer.cpp:681-684, the decode-timestamp monotonicity floor:
`if (pkt->dts < next) pkt->dts = next`. -/
def clamp_dts (next : Int) (p : CPacket) : CPacket :=
  if p.dts < next then { p with dts := next } else p

/-- streamer.cpp:685-687, the presentation-timestamp clamp:
`if (pkt->pts < pkt->dts) pkt->pts = pkt->dts`. -/
def clamp_pts (p : CPacket) : CPacket :=
  if p.pts < p.dts then { p with pts := p.dts } else p

/-- streamer.cpp:690, the cursor increment:
`inc = pkt->duration > 0 ? pkt->duration : 1`. -/
def cursor_inc (p : CPacket) : Int :=
  if p.duration > 0 then p.duration else 1

/-- The per-stream core of `normalize_copy_timestamps`
(streamer.cpp:669-691), for a packet whose stream index passed the
bounds check: fill missing timestamps from the cursor `next`, clamp
dts to the cursor, clamp pts to dts, and return the repaired packet
together with the new cursor `pkt->dts + inc`. -/
def normalize_copy_timestamps_core (next : Int) (p : CPacket) : CPacket × Int :=
  let p3 := clamp_pts (clamp_dts next (fill_missing_timestamps next p))
  (p3, p3.dts + cursor_inc p3)

/-- Function `normalize_copy_timestamps` (streamer.cpp:662-692) at the level of
the whole cursor array `state.copy_next_pts`: a packet whose stream
index `si` is negative or out of range is returned unrepaired with the
cursors untouched; otherwise the per-stream core runs against cursor
`si` and writes back the advanced cursor. -/
def normalize_copy_timestamps (cursors : List Int) (si : Int) (p : CPacket) :
    List Int × CPacket :=
  if si < 0 ∨ (cursors.length : Int) ≤ si then (cursors, p)
  else
    let r := normalize_copy_timestamps_core (cursors.getD si.toNat 0) p
    (cursors.set si.toNat r.2, r.1)

/-- streamer.cpp:785 (`open_outputs`):
`state.copy_next_pts.assign(state.in_ctx->nb_streams, 0)` — one cursor
per input stream, every entry zero. -/
def init_copy_next_pts (nb_streams : Nat) : List Int :=
  List.replicate nb_streams 0

/-- Modelled from the spec's words (§4.5): the copy-path repair
algorithm exactly as the specification states it.  If both timestamps
are unknown, both become `C[stream]`; else a lone unknown presentation
timestamp is set to the decode timestamp; else a lone unknown decode
timestamp is set to the presentation timestamp.  Then the decode
timestamp is raised to `C[stream]` if below it, the presentation
timestamp is raised to the decode timestamp if below it, and the new
cursor is `decode_timestamp + max(duration, 1)`. -/
def spec_copy_repair (c : Int) (p : CPacket) : CPacket × Int :=
  let p1 :=
    if p.pts = AV_NOPTS_VALUE ∧ p.dts = AV_NOPTS_VALUE then
      { p with pts := c, dts := c }
    else if p.pts = AV_NOPTS_VALUE then
      { p with pts := p.dts }
    else if p.dts = AV_NOPTS_VALUE then
      { p with dts := p.pts }
    else p
  let p2 := if p1.dts < c then { p1 with dts := c } else p1
  let p3 := if p2.pts < p2.dts then { p2 with pts := p2.dts } else p2
  (p3, p3.dts + max p3.duration 1)

/-- The repaired-packet component of the core never changes the
duration. -/
theorem core_duration_eq (next : Int) (p : CPacket) :
    (normalize_copy_timestamps_core next p).1.duration = p.duration := by
  simp only [normalize_copy_timestamps_core, clamp_pts, clamp_dts,
    fill_missing_timestamps]
  split_ifs <;> rfl

/-- The repaired decode timestamp is at least the incoming cursor. -/
theorem core_dts_ge_cursor (next : Int) (p : CPacket) :
    next ≤ (normalize_copy_timestamps_core next p).1.dts := by
  simp only [normalize_copy_timestamps_core, clamp_pts, clamp_dts,
    fill_missing_timestamps]
  split_ifs <;> first | omega | (dsimp only at *; omega)

/-- The repaired presentation timestamp is at least the repaired decode
timestamp. -/
theorem core_pts_ge_dts (next : Int) (p : CPacket) :
    (normalize_copy_timestamps_core next p).1.dts ≤
      (normalize_copy_timestamps_core next p).1.pts := by
  simp only [normalize_copy_timestamps_core, clamp_pts, clamp_dts,
    fill_missing_timestamps]
  split_ifs <;> first | omega | (dsimp only; omega)

/-- The outgoing cursor strictly exceeds the repaired decode
timestamp. -/
theorem core_cursor_gt_dts (next : Int) (p : CPacket) :
    (normalize_copy_timestamps_core next p).1.dts <
      (normalize_copy_timestamps_core next p).2 := by
  simp only [normalize_copy_timestamps_core, cursor_inc]
  split_ifs <;> omega

/-- The conditional increment of the source equals `max(duration, 1)`. -/
theorem cursor_inc_eq_max (p : CPacket) : cursor_inc p = max p.duration 1 := by
  simp only [cursor_inc]
  split_ifs <;> omega

/-- The per-stream core agrees with the algorithm as the spec words
it. -/
theorem core_eq_spec_repair (c : Int) (p : CPacket) :
    normalize_copy_timestamps_core c p = spec_copy_repair c p := by
  simp only [normalize_copy_timestamps_core, spec_copy_repair, clamp_pts,
    clamp_dts, fill_missing_timestamps, cursor_inc_eq_max]

/-- A session's sequence of copy-path repairs on one stream: the
per-stream core applied packet after packet, threading the cursor
exactly as `distribute_outputs` calls `normalize_copy_timestamps` on
consecutive packets of that stream. -/
def repair_sequence (c : Int) : List CPacket → List CPacket × Int
  | [] => ([], c)
  | p :: ps =>
    let r := normalize_copy_timestamps_core c p
    let rest := repair_sequence r.2 ps
    (r.1 :: rest.1, rest.2)

/-- The successive cursor values seen while repairing a packet
sequence, starting cursor included. -/
def cursor_trace (c : Int) : List CPacket → List Int
  | [] => [c]
  | p :: ps => c :: cursor_trace (normalize_copy_timestamps_core c p).2 ps

/-- Every repaired packet of a sequence has its decode timestamp at or
above the starting cursor. -/
theorem repair_sequence_dts_ge (c : Int) (ps : List CPacket) :
    ∀ q ∈ (repair_sequence c ps).1, c ≤ q.dts := by
  induction ps generalizing c with
  | nil => intro q hq; simp [repair_sequence] at hq
  | cons p ps ih =>
    intro q hq
    simp only [repair_sequence, List.mem_cons] at hq
    rcases hq with h | h
    · exact h ▸ core_dts_ge_cursor c p
    · have h1 := ih (normalize_copy_timestamps_core c p).2 q h
      have h2 := core_dts_ge_cursor c p
      have h3 := core_cursor_gt_dts c p
      omega

/-- The final cursor of a repair sequence is at least the starting
cursor. -/
theorem repair_sequence_cursor_ge (c : Int) (ps : List CPacket) :
    c ≤ (repair_sequence c ps).2 := by
  induction ps generalizing c with
  | nil => simp [repair_sequence]
  | cons p ps ih =>
    have h1 := core_dts_ge_cursor c p
    have h2 := core_cursor_gt_dts c p
    have h3 := ih (normalize_copy_timestamps_core c p).2
    simp only [repair_sequence]
    omega

/-- The repaired decode timestamps of a repair sequence form a
non-decreasing chain. -/
theorem repair_sequence_dts_chain (c : Int) (ps : List CPacket) :
    List.Chain' (fun a b => a.dts ≤ b.dts) (repair_sequence c ps).1 := by
  induction ps generalizing c with
  | nil => simp [repair_sequence]
  | cons p ps ih =>
    simp only [repair_sequence]
    refine List.chain'_cons'.mpr ⟨?_, ih _⟩
    intro y hy
    have hmem : y ∈ (repair_sequence (normalize_copy_timestamps_core c p).2 ps).1 :=
      List.mem_of_mem_head? hy
    have h1 := repair_sequence_dts_ge (normalize_copy_timestamps_core c p).2 ps y hmem
    have h2 := core_cursor_gt_dts c p
    omega

/-- Every repaired packet of a sequence satisfies `dts ≤ pts`. -/
theorem repair_sequence_pts_ge_dts (c : Int) (ps : List CPacket) :
    ∀ q ∈ (repair_sequence c ps).1, q.dts ≤ q.pts := by
  induction ps generalizing c with
  | nil => intro q hq; simp [repair_sequence] at hq
  | cons p ps ih =>
    intro q hq
    simp only [repair_sequence, List.mem_cons] at hq
    rcases hq with h | h
    · exact h ▸ core_pts_ge_dts c p
    · exact ih _ q h

/-- A cursor trace always starts at the starting cursor. -/
theorem cursor_trace_head (c : Int) (ps : List CPacket) :
    (cursor_trace c ps).head? = some c := by
  cases ps <;> rfl

/-- The cursor values of a repair sequence are non-decreasing. -/
theorem cursor_trace_chain (c : Int) (ps : List CPacket) :
    List.Chain' (· ≤ ·) (cursor_trace c ps) := by
  induction ps generalizing c with
  | nil => simp [cursor_trace]
  | cons p ps ih =>
    simp only [cursor_trace]
    refine List.chain'_cons'.mpr ⟨?_, ih _⟩
    intro y hy
    rw [cursor_trace_head] at hy
    cases hy
    have h1 := core_dts_ge_cursor c p
    have h2 := core_cursor_gt_dts c p
    omega

/-- Unfolded form of `(normalize_copy_timestamps_core c p).2` against the
repaired packet. -/
theorem core_snd_eq (c : Int) (p : CPacket) :
    (normalize_copy_timestamps_core c p).2 =
      (normalize_copy_timestamps_core c p).1.dts +
        cursor_inc (normalize_copy_timestamps_core c p).1 := rfl

/-- C1.  For every raw source packet whose stream index is a valid
index into the per-stream cursor array, the copy-path repair performed
before the copy write implements exactly the algorithm of spec §4.5
(`spec_copy_repair`), and `open_outputs` initializes every per-stream
cursor to 0 at session start. -/
theorem copy_repair_implements_spec (cursors : List Int) (si : Int)
    (p : CPacket) (h1 : 0 ≤ si) (h2 : si < (cursors.length : Int)) :
    (∀ n i, i < n → (init_copy_next_pts n).getD i 1 = 0) ∧
    normalize_copy_timestamps cursors si p =
      (cursors.set si.toNat (spec_copy_repair (cursors.getD si.toNat 0) p).2,
        (spec_copy_repair (cursors.getD si.toNat 0) p).1) := by
  constructor
  · intro n i hi
    simp [init_copy_next_pts, List.getD, hi]
  · simp only [normalize_copy_timestamps, core_eq_spec_repair]
    rw [if_neg (by omega)]

/-- Witness for `copy_repair_implements_spec` at a concrete cursor
array and packet. -/
theorem copy_repair_implements_spec_witness :
    (0 : Int) ≤ 1 ∧ (1 : Int) < (([10, 20] : List Int).length : Int) ∧
    normalize_copy_timestamps [10, 20] 1 ⟨30, 40, 2⟩ =
      (([10, 20] : List Int).set 1 (spec_copy_repair 20 ⟨30, 40, 2⟩).2,
        (spec_copy_repair 20 ⟨30, 40, 2⟩).1) := by
  refine ⟨by decide, by decide, ?_⟩
  have h := (copy_repair_implements_spec [10, 20] 1 ⟨30, 40, 2⟩
    (by decide) (by decide)).2
  simpa using h

/-- C2.  For any sequence of copy-path packets repaired on a given
stream within one session, the repaired decode timestamps are
non-decreasing, each repaired presentation timestamp is at least the
corresponding repaired decode timestamp, and the per-stream cursor
never decreases across the session's lifetime. -/
theorem copy_path_monotonicity (c : Int) (ps : List CPacket) :
    List.Chain' (fun a b => a.dts ≤ b.dts) (repair_sequence c ps).1 ∧
    (∀ q ∈ (repair_sequence c ps).1, q.dts ≤ q.pts) ∧
    List.Chain' (· ≤ ·) (cursor_trace c ps) :=
  ⟨repair_sequence_dts_chain c ps, repair_sequence_pts_ge_dts c ps,
    cursor_trace_chain c ps⟩

/-- C3 counterexample.  A packet whose timestamps are already above the
cursor advances the cursor by more than `max(duration, 1)`: with cursor
0 and a packet with pts = dts = 100 and duration 1, the cursor advances
to 101, not by `max(1, 1) = 1`. -/
theorem cursor_advance_exact_counterexample :
    (normalize_copy_timestamps_core 0 ⟨100, 100, 1⟩).2 - 0 = 101 ∧
    max (⟨100, 100, 1⟩ : CPacket).duration 1 = 1 ∧
    (normalize_copy_timestamps_core 0 ⟨100, 100, 1⟩).2 - 0 ≠
      max (⟨100, 100, 1⟩ : CPacket).duration 1 := by decide

/-- C3 amended.  After repair, the cursor equals the repaired decode
timestamp plus `max(duration, 1)`; consequently it advances by at least
`max(duration, 1)` per packet, with equality exactly when the repaired
decode timestamp equals the prior cursor. -/
theorem cursor_advance_amended (c : Int) (p : CPacket) :
    (normalize_copy_timestamps_core c p).2 =
      (normalize_copy_timestamps_core c p).1.dts + max p.duration 1 ∧
    max p.duration 1 ≤ (normalize_copy_timestamps_core c p).2 - c := by
  have hd := core_duration_eq c p
  have h1 := core_dts_ge_cursor c p
  have h2 := cursor_inc_eq_max (normalize_copy_timestamps_core c p).1
  constructor
  · rw [core_snd_eq, h2, hd]
  · rw [core_snd_eq, h2, hd]
    omega

/-- Function `utils::starts_with` (utils.hpp:8): `s.rfind(prefix, 0) == 0`,
i.e. the prefix test.  Strings are modelled as character lists. -/
def starts_with (s : List Char) (p : List Char) : Bool :=
  p.isPrefixOf s

/-- Function `is_live_input` (streamer.cpp:140): RTSP/RTMP schemes are treated
as live sources. -/
def is_live_input (url : List Char) : Bool :=
  starts_with url ("rtsp").toList || starts_with url ("rtmp").toList

/-- streamer.cpp:1042-1044: for a live input a non-positive configured
reconnect delay is overridden to 5 seconds before the reconnect loop
starts; otherwise the configured value is kept. -/
def effective_reconnect_sec (url : List Char) (reconnect_sec : Int) : Int :=
  if is_live_input url ∧ reconnect_sec ≤ 0 then 5 else reconnect_sec

/-- One outer read iteration of `run_loop` (streamer.cpp:901-934) as
seen through its collaborators: what `av_read_frame` returned and, when
a packet was read, what `distribute_outputs` returned for it. -/
inductive ReadEvent
  | timeout
  | eof
  | readErr (e : Int)
  | packet (distRet : Int)
deriving DecidableEq, Repr

/-- Function `run_loop` (streamer.cpp:892-938).  `stop n` is the value of the
cancellation flag `g_stop_requested` at the poll of iteration `n`;
`evs` is the sequence of read results the source will deliver, an
exhausted list reading as end of stream.  Returns the loop's result
`ret` and the number of read iterations completed before exit.
A timeout event sleeps and retries; a packet event with a negative
`distribute_outputs` result breaks with that error; the stop flag is
polled once at the top of every iteration and exits with
`AVERROR_EXIT`. -/
def run_loop (stop : Nat → Bool) : List ReadEvent → Nat → Int × Nat
  | [], n => if stop n then (AVERROR_EXIT, n) else (AVERROR_EOF, n)
  | e :: rest, n =>
    if stop n then (AVERROR_EXIT, n)
    else
      match e with
      | .timeout => run_loop stop rest (n + 1)
      | .eof => (AVERROR_EOF, n)
      | .readErr x => (x, n)
      | .packet d => if d < 0 then (d, n) else run_loop stop rest (n + 1)

/-- What one iteration of the reconnect loop of `main` decides:
terminate the process with an exit code, sleep the reconnect delay and
start a new session, or fall through to a new iteration without
sleeping. -/
inductive Decision
  | exitWith (code : Int)
  | retry (delaySec : Int)
  | restartNoSleep
deriving DecidableEq, Repr

/-- streamer.cpp:1192-1245.  After `ret = run_loop(state)`, line 1198
reassigns `ret = flush_encoders(state.outputs)`, discarding the run
loop's result: the outcome classification below therefore depends only
on `flushRet`, and the `ret == AVERROR_EXIT` test can never fire.
`stopNow` is the value of `g_stop_requested` at the checks on lines
1215 and 1230. -/
def session_epilogue (stopNow : Bool) (reconnectSec : Int)
    (runRet flushRet : Int) : Decision :=
  let _ := runRet
  let ret := flushRet
  if ret = AVERROR_EXIT then .exitWith 0
  else if ret = AVERROR_EOF ∨ ret = 0 then
    if reconnectSec > 0 then
      if stopNow then .exitWith 0 else .retry reconnectSec
    else .exitWith 0
  else if ret < 0 then
    if reconnectSec > 0 then
      if stopNow then .exitWith 0 else .retry reconnectSec
    else .exitWith 4
  else .restartNoSleep

/-- How one iteration of the reconnect loop of `main`
(streamer.cpp:1074-1246) ended, seen through its collaborators. -/
inductive SessionOutcome
  | openInputFail
  | noVideoStream
  | decoderNotFound
  | decoderAllocFail
  | decoderParamsFail
  | decoderOpenFail
  | outputsOpenFail
  | decodedAllocFail
  | audioPktAllocFail
  | ran (runRet : Int) (flushRet : Int)
deriving DecidableEq, Repr

/-- One iteration of the reconnect loop of `main`
(streamer.cpp:1074-1246): the stop flag is checked at the top of the
loop (line 1075); an input-open failure retries under the reconnect
policy or exits 2; the remaining setup faults exit with their category
code unconditionally; a session that reached `run_loop` is classified
by `session_epilogue`. -/
def loop_iteration (stopTop stopNow : Bool) (reconnectSec : Int)
    (o : SessionOutcome) : Decision :=
  if stopTop then .exitWith 0
  else
    match o with
    | .openInputFail =>
        if reconnectSec > 0 then .retry reconnectSec else .exitWith 2
    | .noVideoStream => .exitWith 3
    | .decoderNotFound => .exitWith 3
    | .decoderAllocFail => .exitWith 3
    | .decoderParamsFail => .exitWith 3
    | .decoderOpenFail => .exitWith 3
    | .outputsOpenFail => .exitWith 4
    | .decodedAllocFail => .exitWith 5
    | .audioPktAllocFail => .exitWith 5
    | .ran r f => session_epilogue stopNow reconnectSec r f

/-- The results `flush_encoders` (streamer.cpp:946-982) can actually
return: 0 on success or a negative error code from send, receive or
write — never a positive value. -/
def flush_result_admissible : SessionOutcome → Prop
  | .ran _ f => f ≤ 0
  | _ => True

/-- C4 (code bug).  The run loop does exit with `AVERROR_EXIT` within
one read iteration once the flag is set — immediately when set before
the first read, and after the in-flight packet completes when set
during packet 0 (the pending read error is never reached) — but the
process exit code is not always 0: `main` discards the run loop's
`AVERROR_EXIT` by reassigning `ret = flush_encoders(...)` (line 1198),
so a failing flush with reconnect disabled terminates with exit code 4
despite the stop request. -/
theorem stop_requested_code_bug_eval :
    run_loop (fun _ => true) [.packet 0, .packet 0] 0 = (AVERROR_EXIT, 0) ∧
    run_loop (fun n => decide (1 ≤ n)) [.packet 0, .readErr (-5)] 0 =
      (AVERROR_EXIT, 1) ∧
    session_epilogue true 0 AVERROR_EXIT (-5) = .exitWith 4 := by decide

/-- C6 (code bug).  With reconnect disabled, a decode/encode/write
error during the run loop should terminate the process with exit
code 4; but because line 1198 overwrites the run loop's result with the
flush result, a successful flush (0) routes the session into the
EOF/normal branch and the process exits 0. -/
theorem exit_code_code_bug_eval :
    session_epilogue false 0 AVERROR_INVALIDDATA 0 = .exitWith 0 ∧
    loop_iteration false false 0 (.ran AVERROR_INVALIDDATA 0) = .exitWith 0 := by
  decide

/-- C5 counterexample.  With reconnect enabled (delay 5) the
no-video-stream setup fault terminates the process with exit code 3,
while a mid-stream fault under the same policy retries: setup faults do
not share the mid-stream retry decision. -/
theorem setup_fault_retry_counterexample :
    loop_iteration false false 5 .noVideoStream = .exitWith 3 ∧
    loop_iteration false false 5 (.ran AVERROR_INVALIDDATA (-22)) = .retry 5 ∧
    Decision.exitWith 3 ≠ Decision.retry 5 := by decide

/-- C5 amended.  A fatal setup fault occurring after the input is open
(no video stream, decoder lookup/alloc/params/open failure,
output/encoder open failure, allocation failure) aborts the session and
terminates the process with its category exit code regardless of the
reconnect policy; only the input-open failure is subject to the
reconnect retry decision. -/
theorem setup_fault_terminal_amended (reconnectSec : Int) (stopNow : Bool) :
    loop_iteration false stopNow reconnectSec .noVideoStream = .exitWith 3 ∧
    loop_iteration false stopNow reconnectSec .decoderNotFound = .exitWith 3 ∧
    loop_iteration false stopNow reconnectSec .decoderAllocFail = .exitWith 3 ∧
    loop_iteration false stopNow reconnectSec .decoderParamsFail = .exitWith 3 ∧
    loop_iteration false stopNow reconnectSec .decoderOpenFail = .exitWith 3 ∧
    loop_iteration false stopNow reconnectSec .outputsOpenFail = .exitWith 4 ∧
    loop_iteration false stopNow reconnectSec .decodedAllocFail = .exitWith 5 ∧
    loop_iteration false stopNow reconnectSec .audioPktAllocFail = .exitWith 5 ∧
    (0 < reconnectSec →
      loop_iteration false stopNow reconnectSec .openInputFail =
        .retry reconnectSec) ∧
    (reconnectSec ≤ 0 →
      loop_iteration false stopNow reconnectSec .openInputFail = .exitWith 2) := by
  refine ⟨rfl, rfl, rfl, rfl, rfl, rfl, rfl, rfl, ?_, ?_⟩
  · intro h
    simp [loop_iteration, h]
  · intro h
    simp only [loop_iteration]
    rw [if_neg (show ¬reconnectSec > 0 from by omega)]
    rfl

/-- Witness for `setup_fault_terminal_amended` at reconnect delay 7. -/
theorem setup_fault_terminal_amended_witness :
    loop_iteration false false 7 .noVideoStream = .exitWith 3 ∧
    loop_iteration false false 7 .openInputFail = .retry 7 :=
  ⟨(setup_fault_terminal_amended 7 false).1,
    (setup_fault_terminal_amended 7 false).2.2.2.2.2.2.2.2.1 (by decide)⟩

/-- C8 counterexample.  For the live URL `rtsp://cam/stream` a
configured reconnect delay of 0 does not disable retry: `main`
overrides it to 5 seconds, and an end-of-stream session outcome then
leads to a restart with a 5 second sleep. -/
theorem reconnect_zero_live_counterexample :
    is_live_input ("rtsp://cam/stream").toList = true ∧
    effective_reconnect_sec ("rtsp://cam/stream").toList 0 = 5 ∧
    loop_iteration false false
        (effective_reconnect_sec ("rtsp://cam/stream").toList 0)
        (.ran AVERROR_EOF 0) = .retry 5 := by decide

/-- C8 amended.  A configured reconnect delay of 0 disables retry for
every non-live input URL (one not starting with rtsp or rtmp): the
effective delay stays 0 and the first session outcome is terminal —
never a restart, with or without sleep.  For live URLs the delay is
overridden to 5 seconds. -/
theorem reconnect_zero_disables_retry_amended (url : List Char)
    (h1 : is_live_input url = false) :
    effective_reconnect_sec url 0 = 0 ∧
    ∀ stopTop stopNow o, flush_result_admissible o →
      ∀ d, loop_iteration stopTop stopNow (effective_reconnect_sec url 0) o ≠
          .retry d ∧
        loop_iteration stopTop stopNow (effective_reconnect_sec url 0) o ≠
          .restartNoSleep := by
  have he : effective_reconnect_sec url 0 = 0 := by
    simp [effective_reconnect_sec, h1]
  refine ⟨he, ?_⟩
  intro stopTop stopNow o ho d
  rw [he]
  cases stopTop
  · cases o <;>
      simp_all [loop_iteration, session_epilogue, flush_result_admissible,
        AVERROR_EXIT, AVERROR_EOF] <;>
      split_ifs <;> simp_all <;> omega
  · simp [loop_iteration]

/-- Witness for `reconnect_zero_disables_retry_amended` at the non-live
URL `out.m3u8` and a failed-session outcome. -/
theorem reconnect_zero_disables_retry_amended_witness :
    is_live_input ("out.m3u8").toList = false ∧
    effective_reconnect_sec ("out.m3u8").toList 0 = 0 ∧
    loop_iteration false false (effective_reconnect_sec ("out.m3u8").toList 0)
        (.ran AVERROR_INVALIDDATA 0) ≠ .retry 5 := by
  have h := reconnect_zero_disables_retry_amended ("out.m3u8").toList (by decide)
  exact ⟨by decide, h.1,
    (h.2 false false (.ran AVERROR_INVALIDDATA 0)
      (by simp [flush_result_admissible]) 5).1⟩

/-- The result of `utils::set_hls_output_options` (avoptions.hpp:21-64)
as the dictionary of option values it sets: segment duration, retained
playlist size, flags, and segment filename pattern. -/
structure HlsOptions where
  hls_time : Option Int
  hls_list_size : Option Int
  hls_flags : String
  hls_segment_filename : String
deriving DecidableEq, Repr

/-- Function `utils::set_hls_output_options` (avoptions.hpp:21-64): `hls_time`
is set when the segment duration is positive; when the retention window
(minutes) is also positive, `hls_list_size` becomes
`(max_keep_minutes * 60) / hls_time_sec` raised to at least 2;
`delete_segments` and the segment pattern are always set. -/
def set_hls_output_options (max_keep_minutes hls_time_sec : Int)
    (segment_pattern : String) : HlsOptions :=
  { hls_time := if hls_time_sec > 0 then some hls_time_sec else none,
    hls_list_size :=
      if hls_time_sec > 0 ∧ max_keep_minutes > 0 then
        some (let list_size := (max_keep_minutes * 60).tdiv hls_time_sec
              if list_size < 2 then 2 else list_size)
      else none,
    hls_flags := "delete_segments",
    hls_segment_filename := segment_pattern }

/-- C9.  When the segment duration (seconds) and the retention window
(minutes) are both positive, the retained-segment count configured for
an output is `max(2, (minutes * 60) / seconds)` with truncating integer
division; in particular a 5 minute window with 4 second segments yields
exactly 75 retained segments. -/
theorem hls_list_size_formula (m s : Int) (pat : String)
    (hm : 0 < m) (hs : 0 < s) :
    (set_hls_output_options m s pat).hls_list_size =
      some (max 2 ((m * 60).tdiv s)) ∧
    (set_hls_output_options 5 4 pat).hls_list_size = some 75 := by
  constructor
  · simp only [set_hls_output_options]
    rw [if_pos ⟨hs, hm⟩]
    congr 1
    dsimp only
    omega
  · simp only [set_hls_output_options]
    rw [if_pos (by constructor <;> decide)]
    rfl

/-- Witness for `hls_list_size_formula` at the scenario of spec §8. -/
theorem hls_list_size_formula_witness :
    (0 : Int) < 5 ∧ (0 : Int) < 4 ∧
    (set_hls_output_options 5 4 ("index_seg_%d.ts")).hls_list_size =
      some (max 2 ((5 * 60 : Int).tdiv 4)) := by
  refine ⟨by decide, by decide, ?_⟩
  exact (hls_list_size_formula 5 4 ("index_seg_%d.ts") (by decide)
    (by decide)).1

/-- Struct `Rendition` (streamer.cpp:30-35): one quality version of the live
stream. -/
structure Rendition where
  name : String
  width : Int
  height : Int
  video_bitrate : Int
deriving DecidableEq, Repr

/-- The static low/mid/high ladder (streamer.cpp:1057-1061). -/
def renditions : List Rendition :=
  [{ name := "low", width := 426, height := 240, video_bitrate := 400000 },
   { name := "mid", width := 854, height := 480, video_bitrate := 1200000 },
   { name := "high", width := 1280, height := 720, video_bitrate := 2500000 }]

/-- The encoder parameters `init_video_encoder` (streamer.cpp:377-422)
derives from a `Rendition` and the frame rate: geometry and bit rate
come verbatim from the rendition; the GOP size is about two seconds of
frames (60 when the rate is unusable); B-frames are disabled. -/
structure VencParams where
  width : Int
  height : Int
  bit_rate : Int
  gop_size : Int
  max_b_frames : Int
deriving DecidableEq, Repr

/-- Function `init_video_encoder` (streamer.cpp:377-422) restricted to the
parameter assignments (the encoder lookup/open are external calls):
`width/height/bit_rate` from the rendition,
`gop_size = fps.num > 0 ? fps.num * 2 / fps.den : 60`,
`max_b_frames = 0`. -/
def init_video_encoder (r : Rendition) (fps_num fps_den : Int) : VencParams :=
  { width := r.width, height := r.height, bit_rate := r.video_bitrate,
    gop_size := if fps_num > 0 then (fps_num * 2).tdiv fps_den else 60,
    max_b_frames := 0 }

/-- Observable output actions of `distribute_outputs` for one video
packet: an encode attempt of a decoded frame at some geometry/bitrate,
or the copy-path write of the packet. -/
inductive OutputAction
  | encodeFrame (frameId : Nat) (width height bit_rate : Int)
  | copyWrite
deriving DecidableEq, Repr

/-- The per-frame encode fan-out of `distribute_outputs`
(streamer.cpp:837-846): `encode_and_write_frame` is attempted once per
output, in ladder order, at that output's encoder geometry and bit
rate; the oracle `ok fid i` tells whether the scale/encode/write of
frame `fid` on output `i` succeeds; the first failure aborts the
fan-out and propagates the error. -/
def encode_frame_all (fid : Nat) (ok : Nat → Nat → Bool) :
    Nat → List VencParams → List OutputAction × Bool
  | _, [] => ([], true)
  | i, o :: os =>
    if ok fid i then
      let r := encode_frame_all fid ok (i + 1) os
      (OutputAction.encodeFrame fid o.width o.height o.bit_rate :: r.1, r.2)
    else ([OutputAction.encodeFrame fid o.width o.height o.bit_rate], false)

/-- The decoded-frame drain loop of `distribute_outputs`
(streamer.cpp:807-847): the frames decoded from the packet are fanned
out one after the other; a failed frame stops the loop and propagates
the error. -/
def distribute_frames (outs : List VencParams) (ok : Nat → Nat → Bool) :
    List Nat → List OutputAction × Bool
  | [] => ([], true)
  | f :: fs =>
    let r := encode_frame_all f ok 0 outs
    if r.2 then
      let rest := distribute_frames outs ok fs
      (r.1 ++ rest.1, rest.2)
    else (r.1, false)

/-- Function `distribute_outputs` (streamer.cpp:797-884) for a video packet:
decode yields `frames`; every rendition encode runs first, and only
when none failed does the copy-path write of the packet follow
(streamer.cpp:876-881).  A failure returns before the copy write is
attempted. -/
def distribute_outputs_video (outs : List VencParams) (ok : Nat → Nat → Bool)
    (frames : List Nat) : List OutputAction × Bool :=
  let r := distribute_frames outs ok frames
  if r.2 then (r.1 ++ [OutputAction.copyWrite], true) else (r.1, false)

/-- On success the per-frame fan-out emits exactly one encode per
output, in order, at the output's parameters. -/
theorem encode_frame_all_success (fid : Nat) (ok : Nat → Nat → Bool)
    (outs : List VencParams) :
    ∀ i, (encode_frame_all fid ok i outs).2 = true →
      (encode_frame_all fid ok i outs).1 =
        outs.map fun o => OutputAction.encodeFrame fid o.width o.height o.bit_rate := by
  induction outs with
  | nil => intro i _; rfl
  | cons o os ih =>
    intro i h
    simp only [encode_frame_all] at h ⊢
    by_cases hok : ok fid i
    · simp only [hok, if_true] at h ⊢
      simp [ih (i + 1) h]
    · simp [hok] at h

/-- The per-frame fan-out never emits a copy write. -/
theorem encode_frame_all_no_copy (fid : Nat) (ok : Nat → Nat → Bool)
    (outs : List VencParams) :
    ∀ i, OutputAction.copyWrite ∉ (encode_frame_all fid ok i outs).1 := by
  induction outs with
  | nil => intro i; simp [encode_frame_all]
  | cons o os ih =>
    intro i
    simp only [encode_frame_all]
    by_cases hok : ok fid i
    · simp only [hok, if_true, List.mem_cons]
      rintro (h | h)
      · exact OutputAction.noConfusion h
      · exact ih (i + 1) h
    · simp [hok]

/-- On success the frame loop emits, frame after frame, the full ladder
fan-out of every decoded frame. -/
theorem distribute_frames_success (outs : List VencParams)
    (ok : Nat → Nat → Bool) (frames : List Nat) :
    (distribute_frames outs ok frames).2 = true →
      (distribute_frames outs ok frames).1 =
        (frames.map fun f =>
          outs.map fun o =>
            OutputAction.encodeFrame f o.width o.height o.bit_rate).flatten := by
  induction frames with
  | nil => intro _; rfl
  | cons f fs ih =>
    intro h
    simp only [distribute_frames] at h ⊢
    by_cases he : (encode_frame_all f ok 0 outs).2 = true
    · simp only [he, if_true] at h ⊢
      simp [encode_frame_all_success f ok outs 0 he, ih h, List.flatten]
    · simp only [Bool.not_eq_true] at he
      simp [he] at h

/-- The frame loop never emits a copy write. -/
theorem distribute_frames_no_copy (outs : List VencParams)
    (ok : Nat → Nat → Bool) (frames : List Nat) :
    OutputAction.copyWrite ∉ (distribute_frames outs ok frames).1 := by
  induction frames with
  | nil => simp [distribute_frames]
  | cons f fs ih =>
    simp only [distribute_frames]
    by_cases he : (encode_frame_all f ok 0 outs).2 = true
    · simp only [he, if_true, List.mem_append]
      rintro (h | h)
      · exact encode_frame_all_no_copy f ok outs 0 h
      · exact ih h
    · simp only [Bool.not_eq_true] at he
      simp only [he, Bool.false_eq_true, if_false]
      exact encode_frame_all_no_copy f ok outs 0

/-- C7.  For a video packet processed in one iteration, each decoded
frame is submitted to every configured rendition's encoder exactly
once, in fixed ladder order, at that rendition's configured resolution
and bit rate, and all rendition encodes precede the single copy-path
write; if any rendition's scale/encode/write fails, the iteration
aborts with no copy write at all. -/
theorem ladder_fanout_order (rs : List Rendition) (fn fd : Int)
    (ok : Nat → Nat → Bool) (frames : List Nat) :
    ((distribute_outputs_video (rs.map (init_video_encoder · fn fd)) ok
        frames).2 = true →
      (distribute_outputs_video (rs.map (init_video_encoder · fn fd)) ok
          frames).1 =
        (frames.map fun f =>
          rs.map fun r =>
            OutputAction.encodeFrame f r.width r.height r.video_bitrate).flatten
          ++ [OutputAction.copyWrite]) ∧
    ((distribute_outputs_video (rs.map (init_video_encoder · fn fd)) ok
        frames).2 = false →
      OutputAction.copyWrite ∉
        (distribute_outputs_video (rs.map (init_video_encoder · fn fd)) ok
          frames).1) := by
  constructor
  · intro h
    simp only [distribute_outputs_video] at h ⊢
    by_cases hd :
        (distribute_frames (rs.map (init_video_encoder · fn fd)) ok frames).2 = true
    · simp only [hd, if_true]
      rw [distribute_frames_success _ ok frames hd]
      simp [List.map_map, Function.comp_def, init_video_encoder]
    · simp only [Bool.not_eq_true] at hd
      simp [hd] at h
  · intro h
    simp only [distribute_outputs_video] at h ⊢
    by_cases hd :
        (distribute_frames (rs.map (init_video_encoder · fn fd)) ok frames).2 = true
    · simp [hd] at h
    · simp only [Bool.not_eq_true] at hd
      simp only [hd, Bool.false_eq_true, if_false]
      exact distribute_frames_no_copy _ ok frames

/-- Witness for `ladder_fanout_order`: the full static ladder at 30
fps, a successful two-frame run (trace is the six ladder encodes then
the copy write) and a failing run (no copy write). -/
theorem ladder_fanout_order_witness :
    (distribute_outputs_video (renditions.map (init_video_encoder · 30 1))
        (fun _ _ => true) [0, 1]).1 =
      (([0, 1] : List Nat).map fun f =>
        renditions.map fun r =>
          OutputAction.encodeFrame f r.width r.height r.video_bitrate).flatten
        ++ [OutputAction.copyWrite] ∧
    OutputAction.copyWrite ∉
      (distribute_outputs_video (renditions.map (init_video_encoder · 30 1))
        (fun _ _ => false) [0]).1 :=
  ⟨(ladder_fanout_order renditions 30 1 (fun _ _ => true) [0, 1]).1 rfl,
    (ladder_fanout_order renditions 30 1 (fun _ _ => false) [0]).2 rfl⟩

/-- The fields of an `AVPacket` read or written by
`write_audio_packet_to_output` (streamer.cpp:704-732): timestamps,
duration, byte-offset hint and stream index. -/
structure APacket where
  pts : Int
  dts : Int
  duration : Int
  pos : Int
  stream_index : Int
deriving DecidableEq, Repr

/-- The copy-path view of an audio packet: the fields
`normalize_copy_timestamps` repairs. -/
def APacket.toCPacket (p : APacket) : CPacket :=
  { pts := p.pts, dts := p.dts, duration := p.duration }

/-- Function `write_audio_packet_to_output` (streamer.cpp:704-732) as the value
transformation it applies to the packet it is handed: pts and dts are
rescaled with `av_rescale_q_rnd` (abstracted as the oracle `rq`), the
duration with `av_rescale_q` (oracle `rd`), the byte-offset hint is
cleared to -1 and the stream index becomes the output stream's index;
the actual write is an external muxer call. -/
def write_audio_packet_to_output (rq rd : Int → Int) (out_index : Int)
    (p : APacket) : APacket :=
  { pts := rq p.pts, dts := rq p.dts, duration := rd p.duration,
    pos := -1, stream_index := out_index }

/-- The audio-relay section of `distribute_outputs`
(streamer.cpp:851-873): per rendition output that declared an audio
stream — an entry `(out_index, rq, rd)` carrying that output's stream
index and rescale oracles — the scratch packet `state.audio_pkt` is
cleared, re-referenced from the read packet `pkt`
(`av_packet_ref(state.audio_pkt, pkt)`), rescaled and written, then
cleared again; the read packet itself is never written through.
Returns the packets as written, the final scratch value, and the read
packet as the copy-path code that follows observes it. -/
def relay_audio_packets :
    List (Int × (Int → Int) × (Int → Int)) → APacket → APacket →
      List APacket × APacket × APacket
  | [], scratch, pkt => ([], scratch, pkt)
  | e :: rest, _scratch, pkt =>
    let s2 := write_audio_packet_to_output e.2.1 e.2.2 e.1 pkt
    let r := relay_audio_packets rest s2 pkt
    (s2 :: r.1, r.2.1, r.2.2)

/-- The relay returns the read packet unchanged. -/
theorem relay_audio_packets_preserves
    (outs : List (Int × (Int → Int) × (Int → Int))) (scratch pkt : APacket) :
    (relay_audio_packets outs scratch pkt).2.2 = pkt := by
  induction outs generalizing scratch with
  | nil => rfl
  | cons e rest ih => exact ih _

/-- Each written packet is the rescaled copy of the read packet. -/
theorem relay_audio_packets_writes
    (outs : List (Int × (Int → Int) × (Int → Int))) (scratch pkt : APacket) :
    (relay_audio_packets outs scratch pkt).1 =
      outs.map fun e => write_audio_packet_to_output e.2.1 e.2.2 e.1 pkt := by
  induction outs generalizing scratch with
  | nil => rfl
  | cons e rest ih =>
    simp only [relay_audio_packets, List.map_cons, List.cons.injEq]
    exact ⟨trivial, ih _⟩

/-- C10.  Relaying an audio packet to the rendition outputs leaves the
original read packet unchanged: the relay operates on the separately
referenced scratch packet (each write receiving the rescaled copy of
the read packet), so after the relay the read packet's pts, dts,
duration and stream index equal their values before it, and the
subsequent copy-path repair observes the unmodified packet. -/
theorem audio_relay_preserves_packet
    (outs : List (Int × (Int → Int) × (Int → Int))) (scratch pkt : APacket)
    (cursors : List Int) :
    (relay_audio_packets outs scratch pkt).2.2.pts = pkt.pts ∧
    (relay_audio_packets outs scratch pkt).2.2.dts = pkt.dts ∧
    (relay_audio_packets outs scratch pkt).2.2.duration = pkt.duration ∧
    (relay_audio_packets outs scratch pkt).2.2.stream_index =
      pkt.stream_index ∧
    (relay_audio_packets outs scratch pkt).1 =
      (outs.map fun e => write_audio_packet_to_output e.2.1 e.2.2 e.1 pkt) ∧
    normalize_copy_timestamps cursors pkt.stream_index
        (relay_audio_packets outs scratch pkt).2.2.toCPacket =
      normalize_copy_timestamps cursors pkt.stream_index pkt.toCPacket := by
  have hp := relay_audio_packets_preserves outs scratch pkt
  exact ⟨by rw [hp], by rw [hp], by rw [hp], by rw [hp],
    relay_audio_packets_writes outs scratch pkt, by rw [hp]⟩
